import Mathlib

/-!
# Trigger: filesystem watch → log → mail pipeline

A shallow embedding of `trigger.go`, `mailer.go` and `server.go`.

* Go strings are Lean `String`s; the byte-level scans the program performs
  (`:`, `@`, `[`, `]`) are on ASCII separators and are carried out on the
  character list.
* `fsnotify.Op` is a `Nat` bit set, combined with `|||` and tested with `&&&`.
* A channel send is an append to the list of messages that were sent.
* Library calls whose result depends on the outside world (the clock, the file
  system, the watcher, the SMTP transport) take their result from an explicit
  argument.
-/

namespace Grimdork

/-! ## Data model -/

/-- Message contains an e-mail message and recipients (`mailer.go`). -/
structure Message where
  Recipients : List String
  Subject : String
  Body : String
  deriving DecidableEq, Repr

/-- Event of the fsnotify library: the reported name and the kind bit set. -/
structure Event where
  Name : String
  Op : Nat
  deriving DecidableEq, Repr

/-- Trigger holds a path, its modes, the recipients, the mode mask `op` and the
accumulated `log` (`trigger.go`). The watcher handle, the wait group, the lock
and the channels carry no data of their own. -/
structure Trigger where
  Name : String
  Subject : String
  Path : String
  Modes : List String
  Watchers : List String
  op : Nat
  log : List String
  deriving DecidableEq, Repr

/-! ## fsnotify event kinds -/

/-- Kind `fsnotify.Create`, the first of the library's `1 << iota` constants. -/
def Create : Nat := 1
/-- Kind `fsnotify.Write`. -/
def Write : Nat := 2
/-- Kind `fsnotify.Remove`. -/
def Remove : Nat := 4
/-- Kind `fsnotify.Rename`. -/
def Rename : Nat := 8
/-- Kind `fsnotify.Chmod`. -/
def Chmod : Nat := 16

/-! ## NowString -/

/-- The fields of `time.Now()` that `NowString` reads. -/
structure Time where
  weekday : Fin 7
  month : Fin 12
  day : Nat
  hour : Nat
  minute : Nat
  second : Nat
  nanosecond : Nat
  year : Int
  deriving DecidableEq, Repr

/-- Result of `time.Weekday.String`. -/
def weekdayString (d : Fin 7) : String :=
  match d with
  | 0 => "Sunday"
  | 1 => "Monday"
  | 2 => "Tuesday"
  | 3 => "Wednesday"
  | 4 => "Thursday"
  | 5 => "Friday"
  | 6 => "Saturday"

/-- Result of `time.Month.String`, January at index 0. -/
def monthString (m : Fin 12) : String :=
  match m with
  | 0 => "January"
  | 1 => "February"
  | 2 => "March"
  | 3 => "April"
  | 4 => "May"
  | 5 => "June"
  | 6 => "July"
  | 7 => "August"
  | 8 => "September"
  | 9 => "October"
  | 10 => "November"
  | 11 => "December"

/-- The verb `%0wd` of `fmt` on a natural number: decimal digits, padded with
zeros on the left up to width `w`. -/
def zeroPad (w n : Nat) : String :=
  let d := (Nat.repr n).data
  String.mk (List.replicate (w - d.length) '0' ++ d)

/-- The verb `%d` of `fmt` on an integer. -/
def fmtInt (i : Int) : String :=
  match i with
  | Int.ofNat n => Nat.repr n
  | Int.negSucc n => "-" ++ Nat.repr (n + 1)

/-- NowString returns a very detailed time string:
`"%s %s %02d %02d:%02d:%02d.%06d %d"` over the first three letters of the
weekday and of the month, the day, the clock, the nanosecond and the year. -/
def NowString (t : Time) : String :=
  String.mk ((weekdayString t.weekday).data.take 3) ++ " " ++
  String.mk ((monthString t.month).data.take 3) ++ " " ++
  zeroPad 2 t.day ++ " " ++
  zeroPad 2 t.hour ++ ":" ++ zeroPad 2 t.minute ++ ":" ++ zeroPad 2 t.second ++
  "." ++ zeroPad 6 t.nanosecond ++ " " ++ fmtInt t.year

/-! ## Trigger.trigger and Trigger.SendLogs -/

/-- The two library functions `trigger` formats its line with:
`fsnotify.Op.String` and `filepath.Join`. -/
structure Lib where
  opString : Nat → String
  join : String → String → String

/-- Method `Trigger.trigger`: an event whose kind misses the mask returns at
once; otherwise one formatted line is appended to the log. -/
def trigger (lib : Lib) (now : Time) (tr : Trigger) (event : Event) : Trigger :=
  if event.Op &&& tr.op = 0 then tr
  else
    let fn := lib.join tr.Path event.Name
    let s := NowString now ++ ": " ++ lib.opString event.Op ++ " " ++ fn ++ "\n"
    { tr with log := tr.log ++ [s] }

/-- The `strings.Builder` loop of `SendLogs`: every line is written in turn. -/
def buildBody (log : List String) : String :=
  log.foldl (fun b s => b ++ s) ""

/-- Method `Trigger.SendLogs` on the trigger and the messages sent on the mail
queue so far: nothing happens on an empty log; otherwise the lines are written
to one body, the log is reset and one message is sent. -/
def SendLogs (tr : Trigger) (queue : List Message) : Trigger × List Message :=
  if tr.log.length = 0 then (tr, queue)
  else
    let b := buildBody tr.log
    let tr1 := { tr with log := [] }
    let msg : Message := { Recipients := tr1.Watchers, Subject := tr1.Subject, Body := b }
    (tr1, queue ++ [msg])

/-- One call on a trigger: `trigger(event)` at a clock reading, or `SendLogs`. -/
inductive Call where
  | event (now : Time) (ev : Event)
  | flush
  deriving DecidableEq, Repr

/-- Effect of one call on the trigger and the queue. -/
def step (lib : Lib) (st : Trigger × List Message) (c : Call) : Trigger × List Message :=
  match c with
  | Call.event now ev => (trigger lib now st.1 ev, st.2)
  | Call.flush => SendLogs st.1 st.2

/-- Effect of a sequence of calls, first to last. -/
def run (lib : Lib) (st : Trigger × List Message) (cs : List Call) : Trigger × List Message :=
  cs.foldl (step lib) st

/-! ## Mail configuration (`mailer.go`) -/

/-- Value `smtp.PlainAuth(identity, username, password, host)` stores. -/
structure PlainAuth where
  identity : String
  username : String
  password : String
  host : String
  deriving DecidableEq, Repr

/-- Error `net.AddrError` of the standard library. -/
structure AddrError where
  Err : String
  Addr : String
  deriving DecidableEq, Repr

/-- Errors `ConfigureMail` can return: `errMalformedMailhost`, or the
`*net.AddrError` of `net.SplitHostPort`. -/
inductive MailError where
  | errMalformedMailhost
  | addr (e : AddrError)
  deriving DecidableEq, Repr

/-- Text of `err.Error()`. -/
def MailError.Error (e : MailError) : String :=
  match e with
  | MailError.errMalformedMailhost => "malformed mailhost string"
  | MailError.addr a => if a.Addr ≠ "" then "address " ++ a.Addr ++ ": " ++ a.Err else a.Err

/-- Trigger registry `map[string]*Trigger`: at most one entry per name. -/
abbrev Registry := List (String × Trigger)

/-- Server holds the trigger registry and the mail configuration
(`server.go`); `auth` is nil until `ConfigureMail` succeeds. -/
structure Server where
  triggers : Registry
  auth : Option PlainAuth
  mailserver : String
  sender : String
  deriving DecidableEq, Repr

/-- Index of the first `c` in `s` (`strings.Index` on a one-byte separator,
`bytealg.IndexByteString`); `none` stands for `-1`. -/
def indexByte (c : Char) (s : List Char) : Option Nat :=
  match s with
  | [] => none
  | x :: xs => if x = c then some 0 else (indexByte c xs).map (fun i => i + 1)

/-- Index of the last `c` in `s` (`bytealg.LastIndexByteString`). -/
def lastIndexByte (c : Char) (s : List Char) : Option Nat :=
  match s with
  | [] => none
  | x :: xs =>
    match lastIndexByte c xs with
    | some i => some (i + 1)
    | none => if x = c then some 0 else none

/-- The loop of `strings.genSplit` with `n` cuts left: cut at the first
separator while cuts remain, the rest is the last piece. -/
def genSplitLoop (c : Char) (n : Nat) (s : List Char) : List (List Char) :=
  match n with
  | 0 => [s]
  | k + 1 =>
    match indexByte c s with
    | none => [s]
    | some m => s.take m :: genSplitLoop c k (s.drop (m + 1))

/-- Call `strings.SplitN(s, sep, n)` for a one-byte `sep` and `n ≥ 0`. -/
def SplitN (s : List Char) (sep : Char) (n : Nat) : List (List Char) :=
  if n = 0 then [] else genSplitLoop sep (n - 1) s

/-- Call `strings.Split(s, sep)` for a one-byte `sep`: `genSplit` with
`n = Count(s, sep) + 1`. -/
def Split (s : List Char) (sep : Char) : List (List Char) :=
  genSplitLoop sep (s.count sep) s

/-- The closing checks of `net.SplitHostPort`: no `[` from position `j`, no `]`
from position `k`; the port starts after the last colon, at `i + 1`. -/
def splitHostPortTail (hostport host : List Char) (i j k : Nat) :
    Except AddrError (List Char × List Char) :=
  if (indexByte '[' (hostport.drop j)).isSome then
    Except.error { Err := "unexpected '[' in address", Addr := String.mk hostport }
  else if (indexByte ']' (hostport.drop k)).isSome then
    Except.error { Err := "unexpected ']' in address", Addr := String.mk hostport }
  else
    Except.ok (host, hostport.drop (i + 1))

/-- Function `net.SplitHostPort` of the standard library. -/
def SplitHostPort (hostport : List Char) : Except AddrError (List Char × List Char) :=
  match lastIndexByte ':' hostport with
  | none => Except.error { Err := "missing port in address", Addr := String.mk hostport }
  | some i =>
    if hostport.head? = some '[' then
      match indexByte ']' hostport with
      | none => Except.error { Err := "missing ']' in address", Addr := String.mk hostport }
      | some e =>
        if e + 1 = hostport.length then
          Except.error { Err := "missing port in address", Addr := String.mk hostport }
        else if e + 1 = i then
          splitHostPortTail hostport ((hostport.take e).drop 1) i 1 (e + 1)
        else if hostport.get? (e + 1) = some ':' then
          Except.error { Err := "too many colons in address", Addr := String.mk hostport }
        else
          Except.error { Err := "missing port in address", Addr := String.mk hostport }
    else
      let host := hostport.take i
      if (indexByte ':' host).isSome then
        Except.error { Err := "too many colons in address", Addr := String.mk hostport }
      else
        splitHostPortTail hostport host i 0 0

/-- Function `net.JoinHostPort`: a host with a colon is put in brackets. -/
def JoinHostPort (host port : String) : String :=
  if (indexByte ':' host.data).isSome then "[" ++ host ++ "]:" ++ port
  else host ++ ":" ++ port

/-- Method `Server.ConfigureMail`: the server afterwards and the error
returned (`none` for nil). -/
def ConfigureMail (srv : Server) (s : String) : Server × Option MailError :=
  match SplitN s.data ':' 2 with
  | [user, rest] =>
    match Split rest '@' with
    | [pass, hp] =>
      match SplitHostPort hp with
      | Except.error err => (srv, some (MailError.addr err))
      | Except.ok (host, port) =>
        ({ srv with
            auth := some { identity := "", username := String.mk user,
                           password := String.mk pass, host := String.mk host }
            mailserver := JoinHostPort (String.mk host) (String.mk port)
            sender := "noreply@" ++ String.mk host },
         none)
    | _ => (srv, some MailError.errMalformedMailhost)
  | _ => (srv, some MailError.errMalformedMailhost)

/-! ## Mail dispatch (`mailer.go`, `server.go`) -/

/-- Arguments of one call of `smtp.SendMail`. -/
structure SendCall where
  addr : String
  auth : Option PlainAuth
  sender : String
  recipients : List String
  payload : String
  deriving DecidableEq, Repr

/-- What the mail side has done so far: the transport calls, in order, and
the lines written with `srv.E`. -/
structure Outbox where
  calls : List SendCall
  errors : List String
  deriving DecidableEq, Repr

/-- Method `Server.sendMail`: the payload is written piece by piece, the
transport is called, and an error it returns is logged. -/
def sendMail (transport : SendCall → Option String) (srv : Server) (out : Outbox)
    (msg : Message) : Outbox :=
  let b := ""
  let b := b ++ "From: "
  let b := b ++ srv.sender
  let b := b ++ "\r\n"
  let b := b ++ "Subject: "
  let b := b ++ msg.Subject
  let b := b ++ "\r\n\r\n"
  let b := b ++ msg.Body
  let b := b ++ "\r\n"
  let call : SendCall :=
    { addr := srv.mailserver, auth := srv.auth, sender := srv.sender,
      recipients := msg.Recipients, payload := b }
  match transport call with
  | some err => { calls := out.calls ++ [call], errors := out.errors ++ ["Error sending mail: " ++ err] }
  | none => { out with calls := out.calls ++ [call] }

/-- The dispatch worker of `Server.Start` on the messages it receives from the
queue, one `sendMail` per message. -/
def dispatch (transport : SendCall → Option String) (srv : Server) (out : Outbox)
    (msgs : List Message) : Outbox :=
  msgs.foldl (sendMail transport srv) out

/-! ## Server.LoadTrigger (`trigger.go`) -/

/-- The keys `UnmarshalJSONObject` stores from a trigger definition. -/
structure Definition where
  name : String
  subject : String
  paths : String
  modes : List String
  watchers : List String
  deriving DecidableEq, Repr

/-- Results of the calls `LoadTrigger` makes on the outside world: `os.Open`
(the file's content), the decoder, `fsnotify.NewWatcher` and `Watcher.Add`;
an error is carried as its text. -/
structure Host where
  openFile : String → Except String String
  decodeObject : String → Except String Definition
  newWatcher : Option String
  add : String → Option String

/-- The `switch` in the loop over `tr.Modes`: one recognised word sets its
flag, any other word changes nothing. -/
def modeStep (op : Nat) (x : String) : Nat :=
  if x = "create" then op ||| Create
  else if x = "chmod" then op ||| Chmod
  else if x = "remove" then op ||| Remove
  else if x = "write" then op ||| Write
  else op

/-- The loop `for _, x := range tr.Modes` from the zero mask. -/
def modeMask (modes : List String) : Nat :=
  modes.foldl modeStep 0

/-- Assignment `m[k] = v` on the registry. -/
def Registry.assign (m : Registry) (k : String) (v : Trigger) : Registry :=
  (k, v) :: m.filter (fun e => e.1 ≠ k)

/-- Lookup `m[k]` on the registry. -/
def Registry.lookup (m : Registry) (k : String) : Option Trigger :=
  (m.find? (fun e => e.1 = k)).map (fun e => e.2)

/-- Method `Server.LoadTrigger`: the server afterwards and the error returned
(`none` for nil). The result of `tr.w.Add(tr.Path)` is not looked at. The
registry holds the pointer `&tr`, so its entry shows the mask the loop sets
after the assignment. -/
def LoadTrigger (host : Host) (srv : Server) (fn : String) : Server × Option String :=
  match host.openFile fn with
  | Except.error err => (srv, some err)
  | Except.ok f =>
    match host.decodeObject f with
    | Except.error err => (srv, some err)
    | Except.ok d =>
      let tr : Trigger :=
        { Name := d.name, Subject := d.subject, Path := d.paths, Modes := d.modes,
          Watchers := d.watchers, op := 0, log := [] }
      match host.newWatcher with
      | some err => (srv, some err)
      | none =>
        let _ := host.add tr.Path
        let tr := { tr with op := tr.Modes.foldl modeStep tr.op }
        ({ srv with triggers := srv.triggers.assign tr.Name tr }, none)

/-! ## Shutdown: Trigger.Quit and Server.Stop (`trigger.go`, `server.go`) -/

/-- The blocking operations and sends `Server.Stop` performs, in program
order: `tr.quit <- true`, `tr.Wait()`, the send `tr.mailqueue <- msg` of the
final `SendLogs`, `srv.mailquit <- true`, `srv.Wait()` and the closing log
line. -/
inductive Action where
  | sendQuit (name : String)
  | waitTrigger (name : String)
  | enqueue (name : String) (msg : Message)
  | sendMailQuit
  | waitServer
  | logStopped
  deriving DecidableEq, Repr

/-- Method `Trigger.Quit`: the quit signal, the wait for the watch task, then
`SendLogs`, whose sends are recorded as `enqueue` actions. -/
def Quit (tr : Trigger) : Trigger × List Action :=
  let r := SendLogs tr []
  (r.1, [Action.sendQuit tr.Name, Action.waitTrigger tr.Name] ++
          r.2.map (Action.enqueue tr.Name))

/-- The loop `for _, tr := range srv.triggers { tr.Quit() }` over the registry
entries in the order the iteration visits them. -/
def quitAll (ts : Registry) : Registry × List Action :=
  match ts with
  | [] => ([], [])
  | (k, tr) :: rest =>
    let q := Quit tr
    let r := quitAll rest
    ((k, q.1) :: r.1, q.2 ++ r.2)

/-- Method `Server.Stop`: every trigger is quit, then the dispatch worker is
told to quit and waited for. -/
def Stop (srv : Server) : Server × List Action :=
  let r := quitAll srv.triggers
  ({ srv with triggers := r.1 },
   r.2 ++ [Action.sendMailQuit, Action.waitServer, Action.logStopped])

/-- Phase of a background task: in its `select` loop, past the receive of its
quit signal, or returned. -/
inductive Phase where
  | running
  | quitting
  | returned
  deriving DecidableEq, Repr

/-- State of the tasks during shutdown: what `Stop` has still to do and has
done, the phase and wait-group counter of each watch task (by trigger name),
the phase of the dispatch worker, the server's wait-group counter, and the
messages the worker has received. -/
structure Sys where
  todo : List Action
  done : List Action
  watch : String → Phase
  twg : String → Nat
  worker : Phase
  swg : Nat
  received : List Message

/-- The task that takes the next step. -/
inductive Move where
  | stop
  | watch (name : String)
  | worker
  deriving DecidableEq, Repr

/-- State after `Server.Start`, when `Stop` is called: every task is in its
loop and has added one to its wait group. -/
def Sys.init (srv : Server) : Sys :=
  { todo := (Stop srv).2, done := [], watch := fun _ => Phase.running, twg := fun _ => 1,
    worker := Phase.running, swg := 1, received := [] }

/-- Whether `Stop` can perform action `a` now, and the state after it. The
channels are unbuffered: a send needs the receiving task in its loop; a wait
needs its counter at zero. -/
def Sys.act (s : Sys) (a : Action) : Option Sys :=
  match a with
  | Action.sendQuit n =>
    if s.watch n = Phase.running then
      some { s with watch := fun m => if m = n then Phase.quitting else s.watch m }
    else none
  | Action.waitTrigger n => if s.twg n = 0 then some s else none
  | Action.enqueue _ msg =>
    if s.worker = Phase.running then some { s with received := s.received ++ [msg] } else none
  | Action.sendMailQuit =>
    if s.worker = Phase.running then some { s with worker := Phase.quitting } else none
  | Action.waitServer => if s.swg = 0 then some s else none
  | Action.logStopped => some s

/-- One step of one task; `none` when that task is blocked or has ended.
A watch task past its quit signal calls `tr.Done()` and returns; the worker
past its quit signal closes the queue, calls `srv.Done()` and returns. -/
def Sys.next (s : Sys) (m : Move) : Option Sys :=
  match m with
  | Move.stop =>
    match s.todo with
    | [] => none
    | a :: rest => (s.act a).map (fun t => { t with todo := rest, done := s.done ++ [a] })
  | Move.watch n =>
    if s.watch n = Phase.quitting then
      some { s with watch := fun m => if m = n then Phase.returned else s.watch m
                    twg := fun m => if m = n then s.twg m - 1 else s.twg m }
    else none
  | Move.worker =>
    if s.worker = Phase.quitting then
      some { s with worker := Phase.returned, swg := s.swg - 1 }
    else none

/-- A schedule of steps from a state; `none` when a step is not possible. -/
def Sys.exec (s : Sys) (ms : List Move) : Option Sys :=
  match ms with
  | [] => some s
  | m :: rest => (s.next m).bind (fun t => t.exec rest)

/-- Every line of the log has at least one character. -/
def LinesNonEmpty (tr : Trigger) : Prop :=
  ∀ s ∈ tr.log, s ≠ ""

/-! ## Concrete inputs -/

/-- The server as `NewServer` builds it before mail is configured and before
any trigger is loaded. -/
def freshServer : Server :=
  { triggers := [], auth := none, mailserver := "", sender := "" }

/-- A definition file that opens and decodes, on a system where the watcher is
created but cannot be attached to the path (the path does not exist). -/
def missingPathHost : Host :=
  { openFile := fun _ => Except.ok "spool.json"
    decodeObject := fun _ =>
      Except.ok { name := "spool", subject := "Spool activity", paths := "/data/missing",
                  modes := ["create", "write"], watchers := ["ops@example.com"] }
    newWatcher := none
    add := fun _ => some "no such file or directory" }

/-- The message an `enqueue` action sends, `none` for any other action. -/
def Action.sent (a : Action) : Option Message :=
  match a with
  | Action.enqueue _ msg => some msg
  | _ => none

/-- What holds in every state of a shutdown whose program is `prog`: `Stop`
follows its program; a wait-group counter is one until its task has returned
and zero afterwards; a wait that `Stop` has passed means its task has
returned; and the worker has received exactly the messages `Stop` has sent. -/
def ShutdownInv (prog : List Action) (s : Sys) : Prop :=
  s.done ++ s.todo = prog ∧
  s.swg = (if s.worker = Phase.returned then 0 else 1) ∧
  (∀ n, s.twg n = (if s.watch n = Phase.returned then 0 else 1)) ∧
  (Action.waitServer ∈ s.done → s.worker = Phase.returned) ∧
  (∀ n, Action.waitTrigger n ∈ s.done → s.watch n = Phase.returned) ∧
  s.received = s.done.filterMap Action.sent

/-- A trigger with two lines in its log. -/
def spoolTrigger : Trigger :=
  { Name := "spool", Subject := "Spool activity", Path := "/data/in",
    Modes := ["create", "write"], Watchers := ["ops@example.com"], op := 3,
    log := ["first\n", "second\n"] }

/-- A trigger with an empty log. -/
def etcTrigger : Trigger :=
  { Name := "etc", Subject := "Config changed", Path := "/etc",
    Modes := ["chmod"], Watchers := ["root@example.com"], op := 16, log := [] }

/-- A server with the two triggers registered. -/
def twoTriggerServer : Server :=
  { freshServer with triggers := [("spool", spoolTrigger), ("etc", etcTrigger)] }

/-- A schedule that carries the shutdown of `twoTriggerServer` to its end. -/
def twoTriggerSchedule : List Move :=
  [Move.stop, Move.watch "spool", Move.stop, Move.stop,
   Move.stop, Move.watch "etc", Move.stop,
   Move.stop, Move.worker, Move.stop, Move.stop]

/-- A rendering of the two library functions on which sample inputs are
evaluated: the names of the kinds in the set, joined by `|`, and the two path
elements joined by `/`. -/
def sampleLib : Lib :=
  { opString := fun op =>
      String.intercalate "|"
        ((if op &&& Create = Create then ["CREATE"] else []) ++
         (if op &&& Remove = Remove then ["REMOVE"] else []) ++
         (if op &&& Write = Write then ["WRITE"] else []) ++
         (if op &&& Rename = Rename then ["RENAME"] else []) ++
         (if op &&& Chmod = Chmod then ["CHMOD"] else []))
    join := fun dir name => dir ++ "/" ++ name }

/-- A clock reading: Wednesday 4 November 2026, 09:05:07 and 123456 ns. -/
def sampleTime : Time :=
  { weekday := 3, month := 10, day := 4, hour := 9, minute := 5, second := 7,
    nanosecond := 123456, year := 2026 }

/-- A create event. -/
def createEvent : Event := { Name := "report.csv", Op := Create }

/-- A chmod event. -/
def chmodEvent : Event := { Name := "report.csv", Op := Chmod }

/-! ## Lemmas on the log and the flush -/

theorem foldl_append_data (log : List String) (b : String) :
    (log.foldl (fun b s => b ++ s) b).data = b.data ++ (log.map String.data).flatten := by
  induction log generalizing b with
  | nil => simp
  | cons s rest ih => simp [ih, List.append_assoc]

theorem buildBody_data (log : List String) :
    (buildBody log).data = (log.map String.data).flatten := by
  simp [buildBody, foldl_append_data]

theorem buildBody_ne_empty (log : List String) (hne : log ≠ [])
    (hl : ∀ s ∈ log, s ≠ "") : buildBody log ≠ "" := by
  intro h
  have hd := congrArg String.data h
  rw [buildBody_data] at hd
  cases log with
  | nil => exact hne rfl
  | cons s rest =>
    have hs : s.data = [] := by
      simp only [List.map_cons, List.flatten_cons] at hd
      exact (List.append_eq_nil.mp hd).1
    exact hl s (List.mem_cons_self _ _) (String.ext hs)

theorem trigger_linesNonEmpty (lib : Lib) (now : Time) (tr : Trigger) (ev : Event)
    (h : LinesNonEmpty tr) : LinesNonEmpty (trigger lib now tr ev) := by
  unfold trigger
  split
  · exact h
  · intro s hs
    simp only [List.mem_append, List.mem_singleton] at hs
    rcases hs with hs | hs
    · exact h s hs
    · intro he
      rw [hs] at he
      have := congrArg String.data he
      simp at this

theorem SendLogs_linesNonEmpty (tr : Trigger) (q : List Message) :
    LinesNonEmpty (SendLogs tr q).1 ∨ (SendLogs tr q).1 = tr := by
  unfold SendLogs
  split
  · exact Or.inr rfl
  · left
    intro s hs
    simp at hs

theorem SendLogs_queue (tr : Trigger) (q : List Message) (h : LinesNonEmpty tr) :
    (SendLogs tr q).2 = q ∨
      ∃ m, (SendLogs tr q).2 = q ++ [m] ∧ m.Body ≠ "" := by
  unfold SendLogs
  split
  · exact Or.inl rfl
  · rename_i hlen
    right
    refine ⟨_, rfl, ?_⟩
    apply buildBody_ne_empty _ _ h
    intro hnil
    exact hlen (by simp [hnil])

theorem step_invariant (lib : Lib) (st : Trigger × List Message) (c : Call)
    (h : LinesNonEmpty st.1 ∧ ∀ m ∈ st.2, m.Body ≠ "") :
    LinesNonEmpty (step lib st c).1 ∧ ∀ m ∈ (step lib st c).2, m.Body ≠ "" := by
  cases c with
  | event now ev => exact ⟨trigger_linesNonEmpty lib now st.1 ev h.1, h.2⟩
  | flush =>
    refine ⟨?_, ?_⟩
    · rcases SendLogs_linesNonEmpty st.1 st.2 with h1 | h1
      · exact h1
      · show LinesNonEmpty (SendLogs st.1 st.2).1
        rw [h1]; exact h.1
    · show ∀ m ∈ (SendLogs st.1 st.2).2, m.Body ≠ ""
      rcases SendLogs_queue st.1 st.2 h.1 with h2 | ⟨m, h2, hm⟩
      · rw [h2]; exact h.2
      · rw [h2]
        intro m1 hm1
        simp only [List.mem_append, List.mem_singleton] at hm1
        rcases hm1 with hm1 | hm1
        · exact h.2 m1 hm1
        · rw [hm1]; exact hm

theorem run_invariant (lib : Lib) (cs : List Call) (st : Trigger × List Message)
    (h : LinesNonEmpty st.1 ∧ ∀ m ∈ st.2, m.Body ≠ "") :
    LinesNonEmpty (run lib st cs).1 ∧ ∀ m ∈ (run lib st cs).2, m.Body ≠ "" := by
  induction cs generalizing st with
  | nil => exact h
  | cons c rest ih =>
    show LinesNonEmpty (run lib (step lib st c) rest).1 ∧ _
    exact ih (step lib st c) (step_invariant lib st c h)

/-! ## Claims on the trigger -/

/-- C2: from a trigger with an empty log and an empty queue, after any
sequence of `trigger(event)` and `SendLogs` calls every message on the queue
has a non-empty body, and a further `SendLogs` on any queue either adds
nothing or adds one message with a non-empty body; on an empty log `SendLogs`
returns the trigger and the queue as they were. -/
theorem sendLogs_never_enqueues_empty_body (lib : Lib) (tr0 : Trigger) (cs : List Call)
    (h0 : tr0.log = []) :
    (∀ m ∈ (run lib (tr0, []) cs).2, m.Body ≠ "") ∧
    (∀ q : List Message,
      (SendLogs (run lib (tr0, []) cs).1 q).2 = q ∨
      ∃ m, (SendLogs (run lib (tr0, []) cs).1 q).2 = q ++ [m] ∧ m.Body ≠ "") ∧
    (∀ (tr : Trigger) (q : List Message), tr.log = [] → SendLogs tr q = (tr, q)) := by
  have hinit : LinesNonEmpty (tr0, ([] : List Message)).1 ∧
      ∀ m ∈ (tr0, ([] : List Message)).2, m.Body ≠ "" := by
    refine ⟨?_, ?_⟩
    · intro s hs
      simp [h0] at hs
    · intro m hm
      simp at hm
  have hinv := run_invariant lib cs (tr0, []) hinit
  refine ⟨hinv.2, fun q => SendLogs_queue _ q hinv.1, ?_⟩
  intro tr q hl
  simp [SendLogs, hl]

/-- C2 at a trigger with an empty log that takes a create event, a flush, a
chmod event and another flush. -/
theorem sendLogs_never_enqueues_empty_body_witness :
    etcTrigger.log = [] ∧
    ((SendLogs (run sampleLib (etcTrigger, [])
        [Call.event sampleTime chmodEvent, Call.flush, Call.event sampleTime createEvent,
         Call.flush]).1 []).2 = [] ∨
      ∃ m, (SendLogs (run sampleLib (etcTrigger, [])
        [Call.event sampleTime chmodEvent, Call.flush, Call.event sampleTime createEvent,
         Call.flush]).1 []).2 = [] ++ [m] ∧ m.Body ≠ "") :=
  ⟨rfl, (sendLogs_never_enqueues_empty_body sampleLib etcTrigger
    [Call.event sampleTime chmodEvent, Call.flush, Call.event sampleTime createEvent,
     Call.flush] rfl).2.1 []⟩

/-- C3: on a non-empty log `SendLogs` adds exactly one message to the queue;
its body is the lines of the log one after the other, its recipients are the
trigger's watchers and its subject the trigger's subject; afterwards the log
is empty and every other field of the trigger is as before. -/
theorem sendLogs_nonempty_log (tr : Trigger) (q : List Message) (h : tr.log ≠ []) :
    (∃ m, (SendLogs tr q).2 = q ++ [m] ∧
      m.Body.data = (tr.log.map String.data).flatten ∧
      m.Recipients = tr.Watchers ∧ m.Subject = tr.Subject) ∧
    (SendLogs tr q).1.log = [] ∧
    (SendLogs tr q).1.Name = tr.Name ∧ (SendLogs tr q).1.Subject = tr.Subject ∧
    (SendLogs tr q).1.Path = tr.Path ∧ (SendLogs tr q).1.Modes = tr.Modes ∧
    (SendLogs tr q).1.Watchers = tr.Watchers ∧ (SendLogs tr q).1.op = tr.op := by
  have hlen : ¬ tr.log.length = 0 := by
    intro hl
    exact h (List.length_eq_zero.mp hl)
  unfold SendLogs
  rw [if_neg hlen]
  exact ⟨⟨_, rfl, buildBody_data tr.log, rfl, rfl⟩, rfl, rfl, rfl, rfl, rfl, rfl, rfl⟩

/-- C3 at a trigger with two lines in its log. -/
theorem sendLogs_nonempty_log_witness :
    spoolTrigger.log ≠ [] ∧ (SendLogs spoolTrigger []).1.log = [] ∧
      (SendLogs spoolTrigger []).1.Watchers = spoolTrigger.Watchers :=
  ⟨by decide, (sendLogs_nonempty_log spoolTrigger [] (by decide)).2.1,
   (sendLogs_nonempty_log spoolTrigger [] (by decide)).2.2.2.2.2.2.1⟩

/-- C4: an event whose kind meets the mode mask makes `trigger` append exactly
one line after the lines already in the log; the line contains the text of the
event's kind and the join of the trigger's path with the event's name. -/
theorem trigger_qualifying_event (lib : Lib) (now : Time) (tr : Trigger) (ev : Event)
    (h : ev.Op &&& tr.op ≠ 0) :
    ∃ line, (trigger lib now tr ev).log = tr.log ++ [line] ∧
      (lib.opString ev.Op).data <:+: line.data ∧
      (lib.join tr.Path ev.Name).data <:+: line.data := by
  refine ⟨NowString now ++ ": " ++ lib.opString ev.Op ++ " " ++
    lib.join tr.Path ev.Name ++ "\n", ?_, ?_, ?_⟩
  · simp [trigger, h]
  · refine ⟨(NowString now ++ ": ").data, (" " ++ lib.join tr.Path ev.Name ++ "\n").data, ?_⟩
    simp [String.data_append, List.append_assoc]
  · refine ⟨(NowString now ++ ": " ++ lib.opString ev.Op ++ " ").data, ("\n" : String).data, ?_⟩
    simp [String.data_append, List.append_assoc]

/-- C4 at a create event on a trigger that watches create and write. -/
theorem trigger_qualifying_event_witness :
    createEvent.Op &&& spoolTrigger.op ≠ 0 ∧
    ∃ line, (trigger sampleLib sampleTime spoolTrigger createEvent).log =
        spoolTrigger.log ++ [line] ∧
      (sampleLib.opString createEvent.Op).data <:+: line.data ∧
      (sampleLib.join spoolTrigger.Path createEvent.Name).data <:+: line.data :=
  ⟨by decide, trigger_qualifying_event sampleLib sampleTime spoolTrigger createEvent (by decide)⟩

/-- C5: an event whose kind misses the mode mask leaves the trigger, its log
included, exactly as it was. -/
theorem trigger_nonqualifying_event (lib : Lib) (now : Time) (tr : Trigger) (ev : Event)
    (h : ev.Op &&& tr.op = 0) : trigger lib now tr ev = tr := by
  simp [trigger, h]

/-- C5 at a chmod event on a trigger that watches create and write. -/
theorem trigger_nonqualifying_event_witness :
    chmodEvent.Op &&& spoolTrigger.op = 0 ∧
    trigger sampleLib sampleTime spoolTrigger chmodEvent = spoolTrigger :=
  ⟨by decide, trigger_nonqualifying_event sampleLib sampleTime spoolTrigger chmodEvent (by decide)⟩

/-! ## The mode mask -/

theorem and_two_pow_ne_zero (m i : Nat) : m &&& 2 ^ i ≠ 0 ↔ m.testBit i = true := by
  constructor
  · intro h
    by_contra hb
    apply h
    apply Nat.eq_of_testBit_eq
    intro k
    simp only [Nat.testBit_and, Nat.zero_testBit, Nat.testBit_two_pow]
    by_cases hk : i = k
    · subst hk; simp [hb]
    · simp [hk]
  · intro hb h
    have := congrArg (fun n => Nat.testBit n i) h
    simp [Nat.testBit_two_pow, hb] at this

theorem modeStep_testBit (op : Nat) (x : String) (k : Nat) :
    (modeStep op x).testBit k =
      (op.testBit k || (decide (x = "create") && decide (0 = k)) ||
        (decide (x = "write") && decide (1 = k)) ||
        (decide (x = "remove") && decide (2 = k)) ||
        (decide (x = "chmod") && decide (4 = k))) := by
  have c : Create = 2 ^ 0 := rfl
  have w : Write = 2 ^ 1 := rfl
  have r : Remove = 2 ^ 2 := rfl
  have h : Chmod = 2 ^ 4 := rfl
  unfold modeStep
  split_ifs with h1 h2 h3 h4
  · subst h1; rw [c, Nat.testBit_lor, Nat.testBit_two_pow]; simp
  · subst h2; rw [h, Nat.testBit_lor, Nat.testBit_two_pow]; simp
  · subst h3; rw [r, Nat.testBit_lor, Nat.testBit_two_pow]; simp
  · subst h4; rw [w, Nat.testBit_lor, Nat.testBit_two_pow]; simp
  · simp [h1, h2, h3, h4]

theorem foldl_modeStep_testBit (modes : List String) (op k : Nat) :
    (modes.foldl modeStep op).testBit k =
      (op.testBit k || (decide ("create" ∈ modes) && decide (0 = k)) ||
        (decide ("write" ∈ modes) && decide (1 = k)) ||
        (decide ("remove" ∈ modes) && decide (2 = k)) ||
        (decide ("chmod" ∈ modes) && decide (4 = k))) := by
  induction modes generalizing op with
  | nil => simp
  | cons x rest ih =>
    rw [List.foldl_cons, ih, modeStep_testBit]
    simp only [List.mem_cons, Bool.decide_or]
    have e : ∀ s : String, decide (s = x) = decide (x = s) :=
      fun s => decide_eq_decide.mpr ⟨Eq.symm, Eq.symm⟩
    simp only [e]
    by_cases h0 : 0 = k
    · subst h0; simp [Bool.or_assoc]
    by_cases h1 : 1 = k
    · subst h1; simp [Bool.or_assoc]
    by_cases h2 : 2 = k
    · subst h2; simp [Bool.or_assoc]
    by_cases h4 : 4 = k
    · subst h4; simp [Bool.or_assoc]
    simp [h0, h1, h2, h4]

theorem modeMask_flag (modes : List String) (i : Nat) :
    modeMask modes &&& 2 ^ i ≠ 0 ↔
      (("create" ∈ modes ∧ 0 = i) ∨ ("write" ∈ modes ∧ 1 = i) ∨
        ("remove" ∈ modes ∧ 2 = i) ∨ ("chmod" ∈ modes ∧ 4 = i)) := by
  rw [and_two_pow_ne_zero, modeMask, foldl_modeStep_testBit]
  simp [or_assoc]

theorem modeMask_congr (modes other : List String)
    (h : ∀ w ∈ ["create", "chmod", "remove", "write"], w ∈ other ↔ w ∈ modes) :
    modeMask other = modeMask modes := by
  apply Nat.eq_of_testBit_eq
  intro k
  have hc := h "create" (by simp)
  have hh := h "chmod" (by simp)
  have hr := h "remove" (by simp)
  have hw := h "write" (by simp)
  simp only [modeMask, foldl_modeStep_testBit, hc, hh, hr, hw]

/-- C6: the mask computed from a list of mode words has the Create, Chmod,
Remove or Write flag set exactly when "create", "chmod", "remove" or "write"
occurs in the list; any other word leaves the mask as it is, so two lists that
agree on which of the four words occur (in particular, two lists with the same
entries in another order or with repetitions) give the same mask; and a
definition that opens, decodes and gets its watcher is registered with that
mask and no error, whatever its mode words are. -/
theorem modeMask_recognised_words (modes : List String) :
    (modeMask modes &&& Create ≠ 0 ↔ "create" ∈ modes) ∧
    (modeMask modes &&& Chmod ≠ 0 ↔ "chmod" ∈ modes) ∧
    (modeMask modes &&& Remove ≠ 0 ↔ "remove" ∈ modes) ∧
    (modeMask modes &&& Write ≠ 0 ↔ "write" ∈ modes) ∧
    (∀ (op : Nat) (x : String), x ∉ ["create", "chmod", "remove", "write"] →
      modeStep op x = op) ∧
    (∀ other : List String,
      (∀ w ∈ ["create", "chmod", "remove", "write"], w ∈ other ↔ w ∈ modes) →
      modeMask other = modeMask modes) ∧
    (∀ other : List String, (∀ x, x ∈ other ↔ x ∈ modes) → modeMask other = modeMask modes) ∧
    (∀ (host : Host) (srv : Server) (fn f : String) (d : Definition),
      host.openFile fn = Except.ok f → host.decodeObject f = Except.ok d →
      host.newWatcher = none → d.modes = modes →
      (LoadTrigger host srv fn).2 = none ∧
      ((LoadTrigger host srv fn).1.triggers.lookup d.name).map (fun t => t.op) =
        some (modeMask modes)) := by
  refine ⟨?_, ?_, ?_, ?_, ?_, ?_, ?_, ?_⟩
  · have := modeMask_flag modes 0
    simpa [Create] using this
  · have := modeMask_flag modes 4
    simpa [Chmod] using this
  · have := modeMask_flag modes 2
    simpa [Remove] using this
  · have := modeMask_flag modes 1
    simpa [Write] using this
  · intro op x hx
    simp only [List.mem_cons, List.mem_singleton, List.not_mem_nil, or_false, not_or] at hx
    simp [modeStep, hx.1, hx.2.1, hx.2.2.1, hx.2.2.2]
  · exact modeMask_congr modes
  · intro other h
    exact modeMask_congr modes other (fun w _ => h w)
  · intro host srv fn f d ho hd hw hm
    simp [LoadTrigger, ho, hd, hw, Registry.assign, Registry.lookup, modeMask, hm]

/-- C6 at the list `["create", "write"]`, against a reordered list with a
repetition and an unknown word, and at a definition file with these modes. -/
theorem modeMask_recognised_words_witness :
    (modeMask ["create", "write"] &&& Create ≠ 0 ↔ "create" ∈ ["create", "write"]) ∧
    modeStep 3 "bogus" = 3 ∧
    modeMask ["write", "bogus", "create", "write"] = modeMask ["create", "write"] ∧
    (LoadTrigger missingPathHost freshServer "triggers/spool.json").2 = none ∧
    ((LoadTrigger missingPathHost freshServer "triggers/spool.json").1.triggers.lookup
        "spool").map (fun t => t.op) = some (modeMask ["create", "write"]) :=
  ⟨(modeMask_recognised_words ["create", "write"]).1,
   (modeMask_recognised_words ["create", "write"]).2.2.2.2.1 3 "bogus" (by decide),
   (modeMask_recognised_words ["create", "write"]).2.2.2.2.2.1
     ["write", "bogus", "create", "write"] (by decide),
   (modeMask_recognised_words ["create", "write"]).2.2.2.2.2.2.2 missingPathHost freshServer
     "triggers/spool.json" "spool.json"
     { name := "spool", subject := "Spool activity", paths := "/data/missing",
       modes := ["create", "write"], watchers := ["ops@example.com"] }
     rfl rfl rfl rfl⟩

/-! ## Loading a trigger whose watch cannot be attached -/

/-- C1 at a failing input: the definition opens and decodes and the watcher is
created, `Add` on the path returns an error, and `LoadTrigger` returns no
error and registers the trigger under its name. -/
theorem loadTrigger_ignores_add_error :
    missingPathHost.add "/data/missing" = some "no such file or directory" ∧
    (LoadTrigger missingPathHost freshServer "triggers/spool.json").2 = none ∧
    (LoadTrigger missingPathHost freshServer "triggers/spool.json").1.triggers.lookup "spool" =
      some { Name := "spool", Subject := "Spool activity", Path := "/data/missing",
             Modes := ["create", "write"], Watchers := ["ops@example.com"],
             op := 3, log := [] } ∧
    freshServer.triggers.lookup "spool" = none := by
  decide

/-! ## Mail dispatch -/

/-- The transport call `sendMail` makes for a message. -/
theorem sendMail_calls (transport : SendCall → Option String) (srv : Server) (out : Outbox)
    (msg : Message) :
    (sendMail transport srv out msg).calls = out.calls ++
      [{ addr := srv.mailserver, auth := srv.auth, sender := srv.sender,
         recipients := msg.Recipients,
         payload := "From: " ++ srv.sender ++ "\r\n" ++ "Subject: " ++ msg.Subject ++
           "\r\n\r\n" ++ msg.Body ++ "\r\n" }] := by
  have e : ("" : String) ++ "From: " = "From: " := by decide
  unfold sendMail
  simp only [e]
  split <;> rfl

theorem dispatch_calls (transport : SendCall → Option String) (srv : Server)
    (msgs : List Message) (out : Outbox) :
    (dispatch transport srv out msgs).calls = out.calls ++
      msgs.map (fun msg =>
        { addr := srv.mailserver, auth := srv.auth, sender := srv.sender,
          recipients := msg.Recipients,
          payload := "From: " ++ srv.sender ++ "\r\n" ++ "Subject: " ++ msg.Subject ++
            "\r\n\r\n" ++ msg.Body ++ "\r\n" }) := by
  induction msgs generalizing out with
  | nil => simp [dispatch]
  | cons m rest ih =>
    have h := ih (sendMail transport srv out m)
    simp only [dispatch, List.foldl_cons] at h ⊢
    rw [h, sendMail_calls]
    simp

/-- C9: `sendMail` adds exactly one transport call, with the server's mail
server, auth and sender, the message's recipients and the payload
`From: <sender>\r\nSubject: <subject>\r\n\r\n<body>\r\n`; what the transport
returns only decides whether one error line is logged (one line for an
error, none otherwise); and the worker, given
any list of messages and any transport, makes one such call per message, in
order, whether or not earlier calls failed. -/
theorem sendMail_one_call_per_message (transport : SendCall → Option String) (srv : Server)
    (out : Outbox) (msg : Message) (msgs : List Message) :
    (sendMail transport srv out msg).calls = out.calls ++
      [{ addr := srv.mailserver, auth := srv.auth, sender := srv.sender,
         recipients := msg.Recipients,
         payload := "From: " ++ srv.sender ++ "\r\n" ++ "Subject: " ++ msg.Subject ++
           "\r\n\r\n" ++ msg.Body ++ "\r\n" }] ∧
    (sendMail transport srv out msg).errors = out.errors ++
      (transport
        { addr := srv.mailserver, auth := srv.auth, sender := srv.sender,
          recipients := msg.Recipients,
          payload := "From: " ++ srv.sender ++ "\r\n" ++ "Subject: " ++ msg.Subject ++
            "\r\n\r\n" ++ msg.Body ++ "\r\n" }).toList.map
        (fun err => "Error sending mail: " ++ err) ∧
    (dispatch transport srv out msgs).calls = out.calls ++
      msgs.map (fun m =>
        { addr := srv.mailserver, auth := srv.auth, sender := srv.sender,
          recipients := m.Recipients,
          payload := "From: " ++ srv.sender ++ "\r\n" ++ "Subject: " ++ m.Subject ++
            "\r\n\r\n" ++ m.Body ++ "\r\n" }) := by
  refine ⟨sendMail_calls transport srv out msg, ?_, dispatch_calls transport srv msgs out⟩
  have e : ("" : String) ++ "From: " = "From: " := by decide
  unfold sendMail
  simp only [e]
  split <;> rename_i h <;> simp [h]


/-! ## Mail configuration -/

theorem indexByte_none (c : Char) (s : List Char) (h : c ∉ s) : indexByte c s = none := by
  induction s with
  | nil => rfl
  | cons x xs ih =>
    simp only [List.mem_cons, not_or] at h
    have hx : ¬ x = c := fun e => h.1 e.symm
    simp [indexByte, hx, ih h.2]

theorem indexByte_append (c : Char) (u rest : List Char) (h : c ∉ u) :
    indexByte c (u ++ c :: rest) = some u.length := by
  induction u with
  | nil => simp [indexByte]
  | cons x xs ih =>
    simp only [List.mem_cons, not_or] at h
    have hx : ¬ x = c := fun e => h.1 e.symm
    simp [indexByte, hx, ih h.2]

theorem lastIndexByte_none (c : Char) (s : List Char) (h : c ∉ s) :
    lastIndexByte c s = none := by
  induction s with
  | nil => rfl
  | cons x xs ih =>
    simp only [List.mem_cons, not_or] at h
    have hx : ¬ x = c := fun e => h.1 e.symm
    simp [lastIndexByte, hx, ih h.2]

theorem lastIndexByte_append (c : Char) (u rest : List Char) (h : c ∉ rest) :
    lastIndexByte c (u ++ c :: rest) = some u.length := by
  induction u with
  | nil => simp [lastIndexByte, lastIndexByte_none c rest h]
  | cons x xs ih => simp [lastIndexByte, ih]

theorem genSplitLoop_one (c : Char) (u rest : List Char) (h : c ∉ u) :
    genSplitLoop c 1 (u ++ c :: rest) = [u, rest] := by
  simp [genSplitLoop, indexByte_append c u rest h]

theorem SplitN_two (c : Char) (u rest : List Char) (h : c ∉ u) :
    SplitN (u ++ c :: rest) c 2 = [u, rest] := by
  simp [SplitN, genSplitLoop_one c u rest h]

theorem Split_once (c : Char) (u rest : List Char) (hu : c ∉ u) (hr : c ∉ rest) :
    Split (u ++ c :: rest) c = [u, rest] := by
  have hc : (u ++ c :: rest).count c = 1 := by
    simp [List.count_append, List.count_eq_zero_of_not_mem hu,
      List.count_eq_zero_of_not_mem hr]
  simp [Split, hc, genSplitLoop_one c u rest hu]

theorem SplitHostPort_plain (host port : List Char)
    (hc : ':' ∉ host) (hl : '[' ∉ host) (hr : ']' ∉ host)
    (pc : ':' ∉ port) (pl : '[' ∉ port) (pr : ']' ∉ port) :
    SplitHostPort (host ++ ':' :: port) = Except.ok (host, port) := by
  have hhead : ¬ (host ++ ':' :: port).head? = some '[' := by
    cases host with
    | nil => simp
    | cons x xs =>
      simp only [List.mem_cons, not_or] at hl
      simpa using fun e => hl.1 e.symm
  have hhead2 : ¬ host.head? = some '[' := by
    cases host with
    | nil => simp
    | cons x xs =>
      simp only [List.mem_cons, not_or] at hl
      simpa using fun e => hl.1 e.symm
  have hl2 : '[' ∉ host ++ ':' :: port := by simp [hl, pl]
  have hr2 : ']' ∉ host ++ ':' :: port := by simp [hr, pr]
  simp [SplitHostPort, lastIndexByte_append ':' host port pc, hhead, hhead2, indexByte_none ':' host hc,
    splitHostPortTail, indexByte_none '[' _ hl2, indexByte_none ']' _ hr2]

theorem JoinHostPort_plain (host port : String) (h : ':' ∉ host.data) :
    JoinHostPort host port = host ++ ":" ++ port := by
  simp [JoinHostPort, indexByte_none ':' host.data h]

theorem credential_data (user password host port : String) :
    (user ++ ":" ++ password ++ "@" ++ host ++ ":" ++ port).data =
      user.data ++ ':' :: (password.data ++ '@' :: (host.data ++ ':' :: port.data)) := by
  simp [String.data_append, List.append_assoc]

/-- The split on '@' cuts at every '@', not only at the first one: with a
port that contains '@' the text after the first ':' falls into three parts and
`ConfigureMail` returns the malformed-mailhost error, where the comment above
the split speaks of the first '@' and the split on ':' is a `SplitN`. -/
theorem configureMail_splits_on_every_at :
    Split "secret@smtp.example.com:5@7".data '@' =
      ["secret".data, "smtp.example.com:5".data, "7".data] ∧
    ConfigureMail freshServer "alice:secret@smtp.example.com:5@7" =
      (freshServer, some MailError.errMalformedMailhost) := by
  decide

/-- C7 as stated, refuted: the user, password and host obey the stated
conditions and the port `[587]` has no colon, yet `net.SplitHostPort` refuses
a bracket after the host and `ConfigureMail` returns its address error and
sets nothing. -/
theorem configureMail_port_with_bracket_fails :
    ¬ (∀ (srv : Server) (user password host port : String),
        ':' ∉ user.data → '@' ∉ password.data →
        (':' ∉ host.data ∧ '@' ∉ host.data ∧ '[' ∉ host.data ∧ ']' ∉ host.data ∧
          '%' ∉ host.data) →
        ':' ∉ port.data →
        ConfigureMail srv (user ++ ":" ++ password ++ "@" ++ host ++ ":" ++ port) =
          ({ srv with
              auth := some { identity := "", username := user, password := password,
                             host := host }
              mailserver := host ++ ":" ++ port
              sender := "noreply@" ++ host }, none)) := by
  intro h
  have h1 := h freshServer "alice" "secret" "smtp.example.com" "[587]"
    (by decide) (by decide) (by decide) (by decide)
  have h2 : ConfigureMail freshServer
      ("alice" ++ ":" ++ "secret" ++ "@" ++ "smtp.example.com" ++ ":" ++ "[587]") =
      (freshServer, some (MailError.addr
        { Err := "unexpected '[' in address", Addr := "smtp.example.com:[587]" })) := by
    decide
  rw [h1] at h2
  exact absurd (congrArg Prod.snd h2) (by decide)

/-- C7 amended: for a user without ':', a password without '@', a host
without ':', '@', '[', ']', '%' and a port without ':', '[', ']',
`ConfigureMail` on `user:password@host:port` returns no error and sets the
plain-auth credentials to (user, password, host), the mail server to
`host:port` and the sender to `noreply@host`, whenever the port has no '@';
a port with '@' is not covered by this statement. -/
theorem configureMail_wellformed (srv : Server) (user password host port : String)
    (hu : ':' ∉ user.data) (hp : '@' ∉ password.data)
    (hh : ':' ∉ host.data ∧ '@' ∉ host.data ∧ '[' ∉ host.data ∧ ']' ∉ host.data ∧
      '%' ∉ host.data)
    (hq : ':' ∉ port.data ∧ '@' ∉ port.data ∧ '[' ∉ port.data ∧ ']' ∉ port.data) :
    ConfigureMail srv (user ++ ":" ++ password ++ "@" ++ host ++ ":" ++ port) =
      ({ srv with
          auth := some { identity := "", username := user, password := password,
                         host := host }
          mailserver := host ++ ":" ++ port
          sender := "noreply@" ++ host }, none) := by
  obtain ⟨hc, ha, hl, hr, _⟩ := hh
  obtain ⟨qc, qa, ql, qr⟩ := hq
  have hrest : '@' ∉ host.data ++ ':' :: port.data := by
    simp only [List.mem_append, List.mem_cons, not_or]
    exact ⟨ha, by decide, qa⟩
  unfold ConfigureMail
  rw [credential_data, SplitN_two ':' _ _ hu]
  simp only []
  rw [Split_once '@' _ _ hp hrest]
  simp only []
  rw [SplitHostPort_plain _ _ hc hl hr qc ql qr]
  simp only [JoinHostPort_plain host port hc]

/-- C7 amended at `alice:secret@smtp.example.com:587`. -/
theorem configureMail_wellformed_witness :
    ConfigureMail freshServer "alice:secret@smtp.example.com:587" =
      ({ freshServer with
          auth := some { identity := "", username := "alice", password := "secret",
                         host := "smtp.example.com" }
          mailserver := "smtp.example.com:587"
          sender := "noreply@smtp.example.com" }, none) :=
  configureMail_wellformed freshServer "alice" "secret" "smtp.example.com" "587"
    (by decide) (by decide) (by decide) (by decide)

/-- C8 as stated, refuted: `u:p@host` has no port, and the error returned is
the address error of `net.SplitHostPort`, not the malformed-mailhost error. -/
theorem configureMail_error_not_always_malformed :
    ¬ (∀ (srv : Server) (s : String) (e : MailError),
        (ConfigureMail srv s).2 = some e →
        e = MailError.errMalformedMailhost ∧ (ConfigureMail srv s).1 = srv) := by
  intro h
  have h1 := h freshServer "u:p@host"
    (MailError.addr { Err := "missing port in address", Addr := "host" }) (by decide)
  exact absurd h1.1 (by decide)

/-- C8 amended: whenever `ConfigureMail` returns an error the server is left
exactly as it was; the error is the malformed-mailhost error when the split on
the first ':' or the split of the remainder on '@' does not give exactly two
parts, and otherwise it is the address error `net.SplitHostPort` returned for
the part after the '@'. -/
theorem configureMail_error (srv : Server) (s : String) (e : MailError)
    (h : (ConfigureMail srv s).2 = some e) :
    (ConfigureMail srv s).1 = srv ∧
    ((e = MailError.errMalformedMailhost ∧
        ((SplitN s.data ':' 2).length ≠ 2 ∨
          ∃ user rest, SplitN s.data ':' 2 = [user, rest] ∧ (Split rest '@').length ≠ 2)) ∨
      ∃ user rest pass hp a, SplitN s.data ':' 2 = [user, rest] ∧
        Split rest '@' = [pass, hp] ∧ SplitHostPort hp = Except.error a ∧
        e = MailError.addr a) := by
  rcases hS : SplitN s.data ':' 2 with _ | ⟨user, _ | ⟨rest, _ | ⟨x, xs⟩⟩⟩
  · simp only [ConfigureMail, hS, Option.some.injEq] at h ⊢
    exact ⟨trivial, Or.inl ⟨h.symm, Or.inl (by simp)⟩⟩
  · simp only [ConfigureMail, hS, Option.some.injEq] at h ⊢
    exact ⟨trivial, Or.inl ⟨h.symm, Or.inl (by simp)⟩⟩
  · rcases hP : Split rest '@' with _ | ⟨pass, _ | ⟨hp, _ | ⟨y, ys⟩⟩⟩
    · simp only [ConfigureMail, hS, hP, Option.some.injEq] at h ⊢
      exact ⟨trivial, Or.inl ⟨h.symm, Or.inr ⟨user, rest, rfl, by simp [hP]⟩⟩⟩
    · simp only [ConfigureMail, hS, hP, Option.some.injEq] at h ⊢
      exact ⟨trivial, Or.inl ⟨h.symm, Or.inr ⟨user, rest, rfl, by simp [hP]⟩⟩⟩
    · rcases hH : SplitHostPort hp with a | ⟨host, port⟩
      · simp only [ConfigureMail, hS, hP, hH, Option.some.injEq] at h ⊢
        exact ⟨trivial, Or.inr ⟨user, rest, pass, hp, a, rfl, hP, hH, h.symm⟩⟩
      · simp [ConfigureMail, hS, hP, hH] at h
    · simp only [ConfigureMail, hS, hP, Option.some.injEq] at h ⊢
      exact ⟨trivial, Or.inl ⟨h.symm, Or.inr ⟨user, rest, rfl, by simp [hP]⟩⟩⟩
  · simp only [ConfigureMail, hS, Option.some.injEq] at h ⊢
    exact ⟨trivial, Or.inl ⟨h.symm, Or.inl (by simp)⟩⟩

/-- C8 amended at `u:p@host` and at the empty string. -/
theorem configureMail_error_witness :
    (ConfigureMail freshServer "u:p@host").1 = freshServer ∧
    (ConfigureMail freshServer "").1 = freshServer :=
  ⟨(configureMail_error freshServer "u:p@host"
      (MailError.addr { Err := "missing port in address", Addr := "host" }) (by decide)).1,
   (configureMail_error freshServer "" MailError.errMalformedMailhost (by decide)).1⟩


/-! ## Shutdown order -/

theorem sendMailQuit_not_mem_quitAll (ts : Registry) :
    Action.sendMailQuit ∉ (quitAll ts).2 := by
  induction ts with
  | nil => simp [quitAll]
  | cons e rest ih =>
    obtain ⟨k, tr⟩ := e
    simp only [quitAll, Quit, List.mem_append, List.mem_cons, List.mem_map, not_or]
    refine ⟨⟨?_, ?_⟩, ih⟩
    · simp
    · rintro ⟨m, _, hm⟩
      cases hm

theorem quitAll_contains (ts : Registry) (k : String) (tr : Trigger) (h : (k, tr) ∈ ts) :
    ∃ pre post, (quitAll ts).2 = pre ++ (Quit tr).2 ++ post := by
  induction ts with
  | nil => simp at h
  | cons e rest ih =>
    obtain ⟨k1, tr1⟩ := e
    rcases List.mem_cons.mp h with h1 | h1
    · cases h1
      exact ⟨[], (quitAll rest).2, by simp [quitAll]⟩
    · obtain ⟨pre, post, hp⟩ := ih h1
      refine ⟨(Quit tr1).2 ++ pre, post, ?_⟩
      simp only [quitAll, hp, List.append_assoc]

theorem act_inv (prog : List Action) (s t : Sys) (a : Action) (rest : List Action)
    (htodo : s.todo = a :: rest) (h : ShutdownInv prog s) (ha : s.act a = some t) :
    ShutdownInv prog { t with todo := rest, done := s.done ++ [a] } := by
  obtain ⟨h1, h2, h3, h4, h5, h6⟩ := h
  have hprog : s.done ++ [a] ++ rest = prog := by
    rw [← h1, htodo]; simp
  cases a with
  | sendQuit n =>
    simp only [Sys.act] at ha
    split at ha
    · rename_i hrun
      cases ha
      refine ⟨hprog, h2, ?_, ?_, ?_, ?_⟩
      · intro m
        by_cases hm : m = n
        · subst hm; simp [h3 m, hrun]
        · simp [hm, h3 m]
      · intro hw
        simp only [List.mem_append, List.mem_singleton] at hw
        rcases hw with hw | hw
        · exact h4 hw
        · cases hw
      · intro m hw
        simp only [List.mem_append, List.mem_singleton] at hw
        rcases hw with hw | hw
        · have := h5 m hw
          by_cases hm : m = n
          · subst hm; rw [hrun] at this; cases this
          · simp [hm, this]
        · cases hw
      · simp [h6, List.filterMap_append, Action.sent]
    · cases ha
  | waitTrigger n =>
    simp only [Sys.act] at ha
    split at ha
    · rename_i hz
      cases ha
      refine ⟨hprog, h2, h3, ?_, ?_, ?_⟩
      · intro hw
        simp only [List.mem_append, List.mem_singleton] at hw
        rcases hw with hw | hw
        · exact h4 hw
        · cases hw
      · intro m hw
        simp only [List.mem_append, List.mem_singleton] at hw
        rcases hw with hw | hw
        · exact h5 m hw
        · cases hw
          have := h3 n
          rw [hz] at this
          by_contra hne
          simp [hne] at this
      · simp [h6, List.filterMap_append, Action.sent]
    · cases ha
  | enqueue n msg =>
    simp only [Sys.act] at ha
    split at ha
    · cases ha
      refine ⟨hprog, h2, h3, ?_, ?_, ?_⟩
      · intro hw
        simp only [List.mem_append, List.mem_singleton] at hw
        rcases hw with hw | hw
        · exact h4 hw
        · cases hw
      · intro m hw
        simp only [List.mem_append, List.mem_singleton] at hw
        rcases hw with hw | hw
        · exact h5 m hw
        · cases hw
      · simp [h6, List.filterMap_append, Action.sent]
    · cases ha
  | sendMailQuit =>
    simp only [Sys.act] at ha
    split at ha
    · rename_i hrun
      cases ha
      refine ⟨hprog, ?_, h3, ?_, ?_, ?_⟩
      · simp [h2, hrun]
      · intro hw
        simp only [List.mem_append, List.mem_singleton] at hw
        rcases hw with hw | hw
        · have := h4 hw
          rw [hrun] at this; cases this
        · cases hw
      · intro m hw
        simp only [List.mem_append, List.mem_singleton] at hw
        rcases hw with hw | hw
        · exact h5 m hw
        · cases hw
      · simp [h6, List.filterMap_append, Action.sent]
    · cases ha
  | waitServer =>
    simp only [Sys.act] at ha
    split at ha
    · rename_i hz
      cases ha
      refine ⟨hprog, h2, h3, ?_, ?_, ?_⟩
      · intro _
        rw [hz] at h2
        by_contra hne
        simp [hne] at h2
      · intro m hw
        simp only [List.mem_append, List.mem_singleton] at hw
        rcases hw with hw | hw
        · exact h5 m hw
        · cases hw
      · simp [h6, List.filterMap_append, Action.sent]
    · cases ha
  | logStopped =>
    simp only [Sys.act] at ha
    cases ha
    refine ⟨hprog, h2, h3, ?_, ?_, ?_⟩
    · intro hw
      simp only [List.mem_append, List.mem_singleton] at hw
      rcases hw with hw | hw
      · exact h4 hw
      · cases hw
    · intro m hw
      simp only [List.mem_append, List.mem_singleton] at hw
      rcases hw with hw | hw
      · exact h5 m hw
      · cases hw
    · simp [h6, List.filterMap_append, Action.sent]

theorem next_inv (prog : List Action) (s t : Sys) (m : Move)
    (h : ShutdownInv prog s) (hn : s.next m = some t) : ShutdownInv prog t := by
  cases m with
  | stop =>
    simp only [Sys.next] at hn
    split at hn
    · cases hn
    · rename_i a rest htodo
      cases ha : s.act a with
      | none => simp [ha] at hn
      | some u =>
        simp only [ha] at hn
        cases hn
        exact act_inv prog s u a rest htodo h ha
  | watch n =>
    obtain ⟨h1, h2, h3, h4, h5, h6⟩ := h
    simp only [Sys.next] at hn
    split at hn
    · rename_i hq
      cases hn
      refine ⟨h1, h2, ?_, h4, ?_, h6⟩
      · intro m
        by_cases hm : m = n
        · subst hm; simp [h3 m, hq]
        · simp [hm, h3 m]
      · intro m hw
        by_cases hm : m = n
        · simp [hm]
        · simp [hm, h5 m hw]
    · cases hn
  | worker =>
    obtain ⟨h1, h2, h3, h4, h5, h6⟩ := h
    simp only [Sys.next] at hn
    split at hn
    · rename_i hq
      cases hn
      exact ⟨h1, by simp [h2, hq], h3, fun _ => rfl, h5, h6⟩
    · cases hn

theorem exec_inv (prog : List Action) (ms : List Move) (s t : Sys)
    (h : ShutdownInv prog s) (he : s.exec ms = some t) : ShutdownInv prog t := by
  induction ms generalizing s with
  | nil =>
    simp only [Sys.exec, Option.some.injEq] at he
    rw [← he]; exact h
  | cons m rest ih =>
    simp only [Sys.exec] at he
    cases hn : s.next m with
    | none => simp [hn] at he
    | some u =>
      simp only [hn, Option.some_bind] at he
      exact ih u (next_inv prog s u m h hn) he

theorem init_inv (srv : Server) : ShutdownInv (Stop srv).2 (Sys.init srv) := by
  refine ⟨by simp [Sys.init], by simp [Sys.init], ?_, ?_, ?_, by simp [Sys.init]⟩
  · intro n; simp [Sys.init]
  · intro hw; simp [Sys.init] at hw
  · intro n hw; simp [Sys.init] at hw

/-- C10: in the actions `Stop` performs, every registered trigger has its quit
signal, then the wait for its watch task, then the sends of its final
`SendLogs`, all before the one quit signal to the dispatch worker, which is
followed only by the wait for the worker and the closing log line; and in
every interleaving of `Stop` with the watch tasks and the worker, `Stop`
follows that order, the worker has received every message `Stop` has sent,
and once `Stop` has returned the worker and every registered watch task have
returned. -/
theorem stop_quits_triggers_before_worker (srv : Server) :
    (∀ (k : String) (tr : Trigger), (k, tr) ∈ srv.triggers →
      ∃ pre post,
        (Stop srv).2 =
          pre ++ ([Action.sendQuit tr.Name, Action.waitTrigger tr.Name] ++
                  (SendLogs tr []).2.map (Action.enqueue tr.Name)) ++ post ++
            [Action.sendMailQuit, Action.waitServer, Action.logStopped] ∧
        Action.sendMailQuit ∉ pre ∧ Action.sendMailQuit ∉ post) ∧
    (∀ (ms : List Move) (s : Sys), (Sys.init srv).exec ms = some s →
      s.done ++ s.todo = (Stop srv).2 ∧
      s.received = s.done.filterMap Action.sent ∧
      (s.todo = [] →
        s.worker = Phase.returned ∧
        ∀ (k : String) (tr : Trigger), (k, tr) ∈ srv.triggers →
          s.watch tr.Name = Phase.returned)) := by
  refine ⟨?_, ?_⟩
  · intro k tr hk
    obtain ⟨pre, post, hp⟩ := quitAll_contains srv.triggers k tr hk
    have hnot := sendMailQuit_not_mem_quitAll srv.triggers
    rw [hp] at hnot
    simp only [List.mem_append, not_or] at hnot
    refine ⟨pre, post, ?_, hnot.1.1, hnot.2⟩
    simp only [Stop, hp, Quit]
  · intro ms s he
    obtain ⟨h1, _, _, h4, h5, h6⟩ := exec_inv _ ms _ s (init_inv srv) he
    refine ⟨h1, h6, ?_⟩
    intro htodo
    rw [htodo, List.append_nil] at h1
    refine ⟨h4 (by rw [h1]; simp [Stop]), ?_⟩
    intro k tr hk
    apply h5
    obtain ⟨pre, post, hp⟩ := quitAll_contains srv.triggers k tr hk
    rw [h1]
    simp [Stop, hp, Quit]

/-- C10 at a server with two triggers and a schedule that completes `Stop`. -/
theorem stop_quits_triggers_before_worker_witness :
    ∃ s, (Sys.init twoTriggerServer).exec twoTriggerSchedule = some s ∧ s.todo = [] ∧
      s.worker = Phase.returned ∧ s.watch "spool" = Phase.returned ∧
      s.watch "etc" = Phase.returned ∧
      s.received = [{ Recipients := ["ops@example.com"], Subject := "Spool activity",
                      Body := "first\nsecond\n" }] := by
  have hsome : ((Sys.init twoTriggerServer).exec twoTriggerSchedule).isSome = true := by decide
  obtain ⟨s, hs⟩ := Option.isSome_iff_exists.mp hsome
  have htodo : ((Sys.init twoTriggerServer).exec twoTriggerSchedule).map (fun t => t.todo) =
      some [] := by decide
  have hdone : ((Sys.init twoTriggerServer).exec twoTriggerSchedule).map
      (fun t => t.done.filterMap Action.sent) =
      some [{ Recipients := ["ops@example.com"], Subject := "Spool activity",
              Body := "first\nsecond\n" }] := by decide
  rw [hs] at htodo hdone
  have htodo : s.todo = [] := Option.some.inj htodo
  have hdone := Option.some.inj hdone
  have h := (stop_quits_triggers_before_worker twoTriggerServer).2 twoTriggerSchedule s hs
  have hr := h.2.2 htodo
  refine ⟨s, hs, htodo, hr.1, ?_, ?_, ?_⟩
  · exact hr.2 "spool" spoolTrigger (by decide)
  · exact hr.2 "etc" etcTrigger (by decide)
  · rw [h.2.1]; exact hdone

end Grimdork
